import Mathlib

/-!
Verification of the highscore platform adapter (`mgba-highscore.c`):
the per-frame adaptive audio pacer of `mgba_core_run_frame` /
`mgba_core_constructed`, and the Game-Boy model and palette
configuration of `mgba_game_boy_core_set_model` /
`mgba_game_boy_core_set_palette`, together with the auto model
resolver described in the design document.

The C `float` arithmetic of the moving average is modelled in exact
rational arithmetic; machine-integer values (`int`, `size_t`) are
modelled as `ℕ` with the relevant casts made explicit.
-/

set_option autoImplicit false

set_option exponentiation.threshold 1000

set_option maxRecDepth 4096

namespace MgbaHighscore

/-- `SAMPLES_PER_FRAME_MOVING_AVG_ALPHA` from mgba-highscore.c:
`1.0f / 180.0f`, modelled in exact rational arithmetic. -/
def SAMPLES_PER_FRAME_MOVING_AVG_ALPHA : ℚ := 1 / 180

/-- The persistent audio-pacer state inside `struct _mGBACore`:
`audio_samples_per_frame_avg` (a C `float`, modelled as `ℚ`) and
`audio_buffer_size` (a `size_t`: the output-buffer capacity counted in
`int16_t` samples). -/
structure PacerState where
  audio_samples_per_frame_avg : ℚ
  audio_buffer_size : ℕ
deriving DecidableEq

/-- Result of one `mgba_core_run_frame` call on the GBA audio path: the
updated pacer state, the number of sample frames requested from the
accumulator (the count passed to `mAudioBufferRead`), the number of
sample frames actually drained (`produced`), and the number of
`int16_t` samples handed to `hs_core_play_samples` (`0` when the play
call is not made). -/
structure FrameResult where
  state : PacerState
  requested : ℕ
  drained : ℕ
  played : ℕ
deriving DecidableEq

/-- Modelled from the spec: `mAudioBufferRead` is engine code that is
not under src/.  Per §6 the accumulator drain returns the number of
frames actually drained, and per §4.2 step 6 that count is
`min(toRead, available)`: the drain never reads past `available`. -/
def mAudioBufferRead (request available : ℕ) : ℕ := min request available

/-- The leaky-integrator update in `mgba_core_run_frame`:
`ALPHA * available + (1 - ALPHA) * avg`. -/
def movingAvgUpdate (avg : ℚ) (available : ℕ) : ℚ :=
  SAMPLES_PER_FRAME_MOVING_AVG_ALPHA * (available : ℚ) +
    (1 - SAMPLES_PER_FRAME_MOVING_AVG_ALPHA) * avg

/-- The `(size_t)` cast of the `float` average in `mgba_core_run_frame`:
truncation, which for the non-negative averages arising here is the
floor. -/
def samplesToRead (avg : ℚ) : ℕ := (⌊avg⌋).toNat

/-- The GBA audio path of `mgba_core_run_frame` (mgba-highscore.c,
lines 236–267), as a function of the pacer state and the accumulator's
`available` sample-frame count reported by `mAudioBufferAvailable`. -/
def mgba_core_run_frame (s : PacerState) (available : ℕ) : FrameResult :=
  if 0 < available then
    let avg := movingAvgUpdate s.audio_samples_per_frame_avg available
    let samples_to_read := samplesToRead avg
    let size :=
      if s.audio_buffer_size < samples_to_read * 2 then samples_to_read * 2
      else s.audio_buffer_size
    let produced := mAudioBufferRead samples_to_read available
    { state := { audio_samples_per_frame_avg := avg, audio_buffer_size := size },
      requested := samples_to_read,
      drained := produced,
      played := if 0 < produced then produced * 2 else 0 }
  else
    { state := s, requested := 0, drained := 0, played := 0 }

/-- The frame loop: one `mgba_core_run_frame` call per entry of the
list of per-frame `available` counts, threading the pacer state. -/
def runFrames (s : PacerState) : List ℕ → PacerState
  | [] => s
  | a :: rest => runFrames (mgba_core_run_frame s a).state rest

/-- C1: whenever the accumulator reports `available > 0` sample
frames, `mgba_core_run_frame` sets the new estimate to
`(1/180)·available + (179/180)·(old estimate)` and requests exactly
`floor` of the new estimate from the accumulator. -/
theorem run_frame_estimate_update (s : PacerState) (available : ℕ)
    (hpos : 0 < available) (hnn : 0 ≤ s.audio_samples_per_frame_avg) :
    (mgba_core_run_frame s available).state.audio_samples_per_frame_avg =
      (1 / 180) * (available : ℚ) +
        (179 / 180) * s.audio_samples_per_frame_avg ∧
    ((mgba_core_run_frame s available).requested : ℤ) =
      ⌊(mgba_core_run_frame s available).state.audio_samples_per_frame_avg⌋ := by
  have havg : 0 ≤ movingAvgUpdate s.audio_samples_per_frame_avg available := by
    unfold movingAvgUpdate SAMPLES_PER_FRAME_MOVING_AVG_ALPHA
    have h1 : (0 : ℚ) ≤ (available : ℚ) := by positivity
    nlinarith
  simp only [mgba_core_run_frame, if_pos hpos]
  refine ⟨?_, ?_⟩
  · unfold movingAvgUpdate SAMPLES_PER_FRAME_MOVING_AVG_ALPHA
    ring
  · simp only [samplesToRead]
    exact Int.toNat_of_nonneg (Int.floor_nonneg.mpr havg)

/-- Witness for C1 at the concrete state `⟨512, 1024⟩` with
`available = 800`. -/
theorem run_frame_estimate_update_witness :
    0 < 800 ∧ (0 : ℚ) ≤ (512 : ℚ) ∧
    ((mgba_core_run_frame ⟨512, 1024⟩ 800).state.audio_samples_per_frame_avg =
      (1 / 180) * ((800 : ℕ) : ℚ) + (179 / 180) * 512 ∧
    ((mgba_core_run_frame ⟨512, 1024⟩ 800).requested : ℤ) =
      ⌊(mgba_core_run_frame ⟨512, 1024⟩ 800).state.audio_samples_per_frame_avg⌋) :=
  ⟨by decide, by norm_num,
    run_frame_estimate_update ⟨512, 1024⟩ 800 (by decide) (by norm_num)⟩

lemma run_frame_pos_eq (s : PacerState) (a : ℕ) (ha : 0 < a) :
    mgba_core_run_frame s a =
      { state :=
          { audio_samples_per_frame_avg :=
              movingAvgUpdate s.audio_samples_per_frame_avg a,
            audio_buffer_size :=
              if s.audio_buffer_size <
                  samplesToRead (movingAvgUpdate s.audio_samples_per_frame_avg a) * 2
              then samplesToRead (movingAvgUpdate s.audio_samples_per_frame_avg a) * 2
              else s.audio_buffer_size },
        requested := samplesToRead (movingAvgUpdate s.audio_samples_per_frame_avg a),
        drained :=
          min (samplesToRead (movingAvgUpdate s.audio_samples_per_frame_avg a)) a,
        played :=
          if 0 < min (samplesToRead (movingAvgUpdate s.audio_samples_per_frame_avg a)) a
          then min (samplesToRead (movingAvgUpdate s.audio_samples_per_frame_avg a)) a * 2
          else 0 } := by
  simp [mgba_core_run_frame, if_pos ha, mAudioBufferRead]

/-- C2: with `available > 0`, the call drains exactly
`min(requested, available)` sample frames, never reads past
`available`, and hands the host a block of `drained * 2` interleaved
`int16_t` samples. -/
theorem run_frame_drain (s : PacerState) (available : ℕ)
    (hpos : 0 < available) :
    (mgba_core_run_frame s available).drained =
      min (mgba_core_run_frame s available).requested available ∧
    (mgba_core_run_frame s available).drained ≤ available ∧
    (mgba_core_run_frame s available).played =
      (mgba_core_run_frame s available).drained * 2 := by
  rw [run_frame_pos_eq s available hpos]
  refine ⟨rfl, Nat.min_le_right _ _, ?_⟩
  dsimp only
  split
  · rfl
  · omega

/-- Witness for C2 at the concrete state `⟨512, 1024⟩` with
`available = 800`. -/
theorem run_frame_drain_witness :
    0 < 800 ∧
    ((mgba_core_run_frame ⟨512, 1024⟩ 800).drained =
      min (mgba_core_run_frame ⟨512, 1024⟩ 800).requested 800 ∧
    (mgba_core_run_frame ⟨512, 1024⟩ 800).drained ≤ 800 ∧
    (mgba_core_run_frame ⟨512, 1024⟩ 800).played =
      (mgba_core_run_frame ⟨512, 1024⟩ 800).drained * 2) :=
  ⟨by decide, run_frame_drain ⟨512, 1024⟩ 800 (by decide)⟩

/-- C3: the output-buffer capacity is resized exactly when it is below
`requested * 2`, in which case it becomes exactly `requested * 2`
(strictly larger than before, and strictly positive); after the resize
step the capacity covers `requested * 2`; and across any sequence of
calls the capacity never decreases. -/
theorem run_frame_buffer_growth (s : PacerState) (available : ℕ)
    (l : List ℕ) (hpos : 0 < available) :
    ((mgba_core_run_frame s available).state.audio_buffer_size =
      if s.audio_buffer_size < (mgba_core_run_frame s available).requested * 2
      then (mgba_core_run_frame s available).requested * 2
      else s.audio_buffer_size) ∧
    (s.audio_buffer_size < (mgba_core_run_frame s available).requested * 2 →
      (mgba_core_run_frame s available).state.audio_buffer_size =
        (mgba_core_run_frame s available).requested * 2 ∧
      s.audio_buffer_size <
        (mgba_core_run_frame s available).state.audio_buffer_size ∧
      0 < (mgba_core_run_frame s available).state.audio_buffer_size) ∧
    (mgba_core_run_frame s available).requested * 2 ≤
      (mgba_core_run_frame s available).state.audio_buffer_size ∧
    s.audio_buffer_size ≤
      (mgba_core_run_frame s available).state.audio_buffer_size ∧
    s.audio_buffer_size ≤ (runFrames s l).audio_buffer_size := by
  have hstep : ∀ (t : PacerState) (a : ℕ),
      t.audio_buffer_size ≤ (mgba_core_run_frame t a).state.audio_buffer_size := by
    intro t a
    by_cases ha : 0 < a
    · rw [run_frame_pos_eq t a ha]
      dsimp only
      split
      · omega
      · exact le_refl _
    · simp [mgba_core_run_frame, ha]
  have hmono : ∀ (l' : List ℕ) (t : PacerState),
      t.audio_buffer_size ≤ (runFrames t l').audio_buffer_size := by
    intro l'
    induction l' with
    | nil => intro t; exact le_refl _
    | cons a rest ih =>
      intro t
      exact le_trans (hstep t a) (ih (mgba_core_run_frame t a).state)
  refine ⟨?_, ?_, ?_, hstep s available, hmono l s⟩
  · rw [run_frame_pos_eq s available hpos]
  · rw [run_frame_pos_eq s available hpos]
    dsimp only
    intro hlt
    rw [if_pos hlt]
    omega
  · rw [run_frame_pos_eq s available hpos]
    dsimp only
    split
    · exact le_refl _
    · omega

/-- Witness for C3 at the concrete state `⟨512, 4⟩` with
`available = 800` and the call sequence `[800, 0, 3]`. -/
theorem run_frame_buffer_growth_witness :
    0 < 800 ∧
    (((mgba_core_run_frame ⟨512, 4⟩ 800).state.audio_buffer_size =
      if (4 : ℕ) < (mgba_core_run_frame ⟨512, 4⟩ 800).requested * 2
      then (mgba_core_run_frame ⟨512, 4⟩ 800).requested * 2
      else 4) ∧
    ((4 : ℕ) < (mgba_core_run_frame ⟨512, 4⟩ 800).requested * 2 →
      (mgba_core_run_frame ⟨512, 4⟩ 800).state.audio_buffer_size =
        (mgba_core_run_frame ⟨512, 4⟩ 800).requested * 2 ∧
      (4 : ℕ) < (mgba_core_run_frame ⟨512, 4⟩ 800).state.audio_buffer_size ∧
      0 < (mgba_core_run_frame ⟨512, 4⟩ 800).state.audio_buffer_size) ∧
    (mgba_core_run_frame ⟨512, 4⟩ 800).requested * 2 ≤
      (mgba_core_run_frame ⟨512, 4⟩ 800).state.audio_buffer_size ∧
    (4 : ℕ) ≤ (mgba_core_run_frame ⟨512, 4⟩ 800).state.audio_buffer_size ∧
    (4 : ℕ) ≤ (runFrames ⟨512, 4⟩ [800, 0, 3]).audio_buffer_size) :=
  ⟨by decide, run_frame_buffer_growth ⟨512, 4⟩ 800 [800, 0, 3] (by decide)⟩

/-- C4: a zero-available call is a no-op producing an empty block: the
state (estimate and buffer capacity) is unchanged, nothing is drained
and nothing is handed to the host; any run of consecutive
zero-available frames leaves the estimate undecayed; and a call whose
`requested` count is zero drains nothing and hands the host nothing. -/
theorem run_frame_zero_available (s : PacerState) (a n : ℕ)
    (hreq : (mgba_core_run_frame s a).requested = 0) :
    mgba_core_run_frame s 0 = ⟨s, 0, 0, 0⟩ ∧
    runFrames s (List.replicate n 0) = s ∧
    (mgba_core_run_frame s a).drained = 0 ∧
    (mgba_core_run_frame s a).played = 0 := by
  have hzero : mgba_core_run_frame s 0 = ⟨s, 0, 0, 0⟩ := by
    simp [mgba_core_run_frame]
  refine ⟨hzero, ?_, ?_, ?_⟩
  · induction n with
    | zero => rfl
    | succ k ih =>
      rw [List.replicate_succ, runFrames, hzero]
      exact ih
  · by_cases ha : 0 < a
    · simp only [mgba_core_run_frame, if_pos ha] at hreq ⊢
      simp [mAudioBufferRead, hreq]
    · simp [mgba_core_run_frame, ha]
  · by_cases ha : 0 < a
    · simp only [mgba_core_run_frame, if_pos ha] at hreq ⊢
      simp [mAudioBufferRead, hreq]
    · simp [mgba_core_run_frame, ha]

/-- Witness for C4 at the concrete state `⟨1/2, 0⟩` with `a = 1` (whose
updated estimate is below 1, so `requested = 0`) and three consecutive
zero-available frames. -/
theorem run_frame_zero_available_witness :
    (mgba_core_run_frame ⟨1/2, 0⟩ 1).requested = 0 ∧
    (mgba_core_run_frame ⟨1/2, 0⟩ 0 = ⟨⟨1/2, 0⟩, 0, 0, 0⟩ ∧
    runFrames ⟨1/2, 0⟩ (List.replicate 3 0) = ⟨1/2, 0⟩ ∧
    (mgba_core_run_frame ⟨1/2, 0⟩ 1).drained = 0 ∧
    (mgba_core_run_frame ⟨1/2, 0⟩ 1).played = 0) :=
  ⟨by norm_num [mgba_core_run_frame, movingAvgUpdate, samplesToRead,
      SAMPLES_PER_FRAME_MOVING_AVG_ALPHA],
    run_frame_zero_available ⟨1/2, 0⟩ 1 3
      (by norm_num [mgba_core_run_frame, movingAvgUpdate, samplesToRead,
        SAMPLES_PER_FRAME_MOVING_AVG_ALPHA])⟩

/-- Modelled from the spec: the engine collaborator's GBA audio sample
rate (`audioSampleRate`, not under src/); the GBA core reports
32768 Hz. -/
def gbaAudioSampleRate : ℚ := 32768

/-- Modelled from the spec: the engine collaborator's GBA clock
frequency (`frequency`, not under src/): 16777216 Hz. -/
def gbaFrequency : ℚ := 16777216

/-- Modelled from the spec: the engine collaborator's GBA cycles per
video frame (`frameCycles`, not under src/): 280896. -/
def gbaFrameCycles : ℚ := 280896

/-- `mgba_core_get_frame_rate` (GBA): `frequency / frameCycles` as a
`double`, modelled exactly. -/
def mgba_core_get_frame_rate : ℚ := gbaFrequency / gbaFrameCycles

/-- `mgba_core_get_sample_rate` (GBA): the engine's audio sample
rate. -/
def mgba_core_get_sample_rate : ℚ := gbaAudioSampleRate

/-- `samples_per_frame` computed in `mgba_core_constructed`: the
`double` quotient sample-rate / frame-rate truncated to `size_t`. -/
def samples_per_frame : ℕ :=
  (⌊mgba_core_get_sample_rate / mgba_core_get_frame_rate⌋).toNat

/-- The GBA branch of `mgba_core_constructed` (lines 387–394): the
initial pacer state, with the average seeded at `samples_per_frame`
and the buffer sized at `samples_per_frame * 2`. -/
def mgba_core_constructed : PacerState :=
  { audio_samples_per_frame_avg := (samples_per_frame : ℚ),
    audio_buffer_size := samples_per_frame * 2 }

lemma samples_per_frame_eq : samples_per_frame = 548 := by
  norm_num [samples_per_frame, mgba_core_get_sample_rate,
    mgba_core_get_frame_rate, gbaAudioSampleRate, gbaFrequency, gbaFrameCycles]
  rfl

lemma avg_nonneg_run_frame (s : PacerState) (a : ℕ)
    (h : 0 ≤ s.audio_samples_per_frame_avg) :
    0 ≤ (mgba_core_run_frame s a).state.audio_samples_per_frame_avg := by
  by_cases ha : 0 < a
  · simp only [mgba_core_run_frame, if_pos ha]
    unfold movingAvgUpdate SAMPLES_PER_FRAME_MOVING_AVG_ALPHA
    have h1 : (0 : ℚ) ≤ (a : ℚ) := by positivity
    nlinarith
  · simpa [mgba_core_run_frame, ha] using h

lemma avg_nonneg_runFrames (l : List ℕ) (s : PacerState)
    (h : 0 ≤ s.audio_samples_per_frame_avg) :
    0 ≤ (runFrames s l).audio_samples_per_frame_avg := by
  induction l generalizing s with
  | nil => exact h
  | cons a rest ih => exact ih _ (avg_nonneg_run_frame s a h)

/-- C5: the estimate is seeded at construction with the platform's
nominal samples-per-frame (GBA: sample rate over frame rate, truncated
to 548), and stays non-negative across every sequence of frame
calls. -/
theorem estimate_init_and_nonneg (l : List ℕ) :
    mgba_core_constructed.audio_samples_per_frame_avg =
      (samples_per_frame : ℚ) ∧
    samples_per_frame = 548 ∧
    0 ≤ (runFrames mgba_core_constructed l).audio_samples_per_frame_avg := by
  refine ⟨rfl, samples_per_frame_eq, ?_⟩
  exact avg_nonneg_runFrames l mgba_core_constructed (Nat.cast_nonneg _)

/-- The estimate after `n` frames driven by a synthetic accumulator
reporting a constant `800` available sample frames on every call,
starting from the constructed state. -/
def estAfter (n : ℕ) : ℚ :=
  (runFrames mgba_core_constructed
    (List.replicate n 800)).audio_samples_per_frame_avg

lemma runFrames_replicate_avg (a : ℕ) (ha : 0 < a) (n : ℕ) (s : PacerState) :
    (runFrames s (List.replicate n a)).audio_samples_per_frame_avg =
      (a : ℚ) + (s.audio_samples_per_frame_avg - (a : ℚ)) * (179 / 180) ^ n := by
  induction n generalizing s with
  | zero => simp [runFrames]
  | succ k ih =>
    rw [List.replicate_succ, runFrames, ih]
    rw [run_frame_pos_eq s a ha]
    dsimp only
    unfold movingAvgUpdate SAMPLES_PER_FRAME_MOVING_AVG_ALPHA
    ring

lemma constructed_avg_eq : mgba_core_constructed.audio_samples_per_frame_avg = 548 := by
  show ((samples_per_frame : ℕ) : ℚ) = 548
  rw [samples_per_frame_eq]
  norm_num

lemma estAfter_closed (n : ℕ) :
    estAfter n = 800 - 252 * (179 / 180 : ℚ) ^ n := by
  unfold estAfter
  rw [runFrames_replicate_avg 800 (by norm_num) n mgba_core_constructed,
    constructed_avg_eq]
  push_cast
  ring

/-- C6 counterexample: after exactly 540 calls (which satisfies
"at least 540"), the estimate, started from the constructed value 548,
is still more than 1% away from 800 (it is `800 - 252·(179/180)^540`,
about 787.6, below the 792 needed). -/
theorem constant_800_counterexample_540 :
    540 ≤ 540 ∧ ¬ |estAfter 540 - 800| ≤ 800 / 100 := by
  refine ⟨le_refl _, ?_⟩
  rw [estAfter_closed, not_le]
  have habs : (800 : ℚ) - 252 * (179 / 180 : ℚ) ^ 540 - 800 =
      -(252 * (179 / 180 : ℚ) ^ 540) := by ring
  rw [habs, abs_neg, abs_of_pos (by positivity)]
  have h8 : (800 : ℚ) / 100 = 8 := by norm_num
  rw [h8, div_pow, mul_div_assoc']
  rw [lt_div_iff₀ (by positivity)]
  have knat : (8 : ℕ) * 180 ^ 540 < 252 * 179 ^ 540 := by decide
  exact_mod_cast knat

/-- C6 (amended): with a synthetic accumulator reporting a constant 800
available frames, starting from the constructed estimate (548): after at
least 620 consecutive calls the estimate is within 1% of 800, and on
every call exactly `floor` of the updated estimate is drained, never
more than the 800 available. -/
theorem run_frame_constant_800 (n m : ℕ) (hn : 620 ≤ n) :
    |estAfter n - 800| ≤ 800 / 100 ∧
    (mgba_core_run_frame
        (runFrames mgba_core_constructed (List.replicate m 800)) 800).drained =
      samplesToRead
        ((mgba_core_run_frame
          (runFrames mgba_core_constructed (List.replicate m 800)) 800).state.audio_samples_per_frame_avg) ∧
    (mgba_core_run_frame
        (runFrames mgba_core_constructed (List.replicate m 800)) 800).drained ≤ 800 := by
  constructor
  · rw [estAfter_closed]
    have habs : (800 : ℚ) - 252 * (179 / 180 : ℚ) ^ n - 800 =
        -(252 * (179 / 180 : ℚ) ^ n) := by ring
    rw [habs, abs_neg, abs_of_nonneg (by positivity)]
    have h8 : (800 : ℚ) / 100 = 8 := by norm_num
    rw [h8]
    have hpow : (179 / 180 : ℚ) ^ n ≤ (179 / 180 : ℚ) ^ 620 :=
      pow_le_pow_of_le_one (by norm_num) (by norm_num) hn
    have h620 : (252 : ℚ) * (179 / 180 : ℚ) ^ 620 ≤ 8 := by
      rw [div_pow, mul_div_assoc']
      rw [div_le_iff₀ (by positivity)]
      have knat : (252 : ℕ) * 179 ^ 620 ≤ 8 * 180 ^ 620 := by decide
      exact_mod_cast knat
    nlinarith
  · set S := runFrames mgba_core_constructed (List.replicate m 800) with hS
    have hSavg : S.audio_samples_per_frame_avg = 800 - 252 * (179 / 180 : ℚ) ^ m :=
      estAfter_closed m
    have hupd_le : movingAvgUpdate S.audio_samples_per_frame_avg 800 ≤ 800 := by
      unfold movingAvgUpdate SAMPLES_PER_FRAME_MOVING_AVG_ALPHA
      rw [hSavg]
      have : (0 : ℚ) ≤ (179 / 180 : ℚ) ^ m := by positivity
      push_cast
      nlinarith
    have hfloor : ⌊movingAvgUpdate S.audio_samples_per_frame_avg 800⌋ ≤ 800 := by
      have h800 : ⌊(800 : ℚ)⌋ = 800 := by norm_num
      calc ⌊movingAvgUpdate S.audio_samples_per_frame_avg 800⌋
      _ ≤ ⌊(800 : ℚ)⌋ := Int.floor_le_floor hupd_le
      _ = 800 := h800
    have hread : samplesToRead (movingAvgUpdate S.audio_samples_per_frame_avg 800) ≤ 800 := by
      unfold samplesToRead
      exact Int.toNat_le.mpr (by exact_mod_cast hfloor)
    rw [run_frame_pos_eq S 800 (by norm_num)]
    dsimp only
    exact ⟨min_eq_left hread, Nat.min_le_right _ _⟩

/-- Witness for the amended C6 at `n = 620`, `m = 0`. -/
theorem run_frame_constant_800_witness :
    620 ≤ 620 ∧
    (|estAfter 620 - 800| ≤ 800 / 100 ∧
    (mgba_core_run_frame
        (runFrames mgba_core_constructed (List.replicate 0 800)) 800).drained =
      samplesToRead
        ((mgba_core_run_frame
          (runFrames mgba_core_constructed (List.replicate 0 800)) 800).state.audio_samples_per_frame_avg) ∧
    (mgba_core_run_frame
        (runFrames mgba_core_constructed (List.replicate 0 800)) 800).drained ≤ 800) :=
  ⟨le_refl _, run_frame_constant_800 620 0 (le_refl _)⟩

/-- The mGBA `enum GBModel` variants used by the adapter. -/
inductive GBModel
  | DMG
  | MGB
  | CGB
  | AGB
  | SGB
  | SGB2
deriving DecidableEq

/-- The derived color-handling mode {NONE, CGB, SGB} of the design
document (§3, `ResolvedModel`). -/
inductive ColorMode
  | NONE
  | CGB
  | SGB
deriving DecidableEq

/-- Modelled from the spec: the variant-to-ColorMode table of §4.1
(DMG/MGB→NONE, CGB/AGB→CGB, SGB/SGB2→SGB); the engine-side color-mode
derivation is not under src/. -/
def colorModeOf : GBModel → ColorMode
  | .DMG => .NONE
  | .MGB => .NONE
  | .CGB => .CGB
  | .AGB => .CGB
  | .SGB => .SGB
  | .SGB2 => .SGB

/-- The `ResolvedModel` record of §3: one hardware variant plus its
derived color mode. -/
structure ResolvedModel where
  variant : GBModel
  colorMode : ColorMode
deriving DecidableEq

/-- The `requestedMode` input of the Model Resolver (§4.1). -/
inductive RequestedMode
  | Fixed (variant : GBModel)
  | AutoPreferColor
  | AutoPreferSuperGB
deriving DecidableEq

/-- Modelled from the spec: §3's `ValidModelSet`, the set of hardware
variants the cartridge self-declares compatible with (a subset of
{DMG, MGB, SGB, CGB, AGB}); its derivation from header flags is
engine-side code not under src/. -/
structure ValidModelSet where
  dmg : Bool
  mgb : Bool
  sgb : Bool
  cgb : Bool
  agb : Bool
deriving DecidableEq

/-- Modelled from the spec: the sgb-enhanced half of §4.1 step 2's
fixed 4-case classification: {SGB∪MGB}, {SGB∪CGB} and {MGB∪SGB∪CGB}
are sgb-enhanced. -/
def sgbEnhanced (v : ValidModelSet) : Bool :=
  (v = ⟨false, true, true, false, false⟩) ||
  (v = ⟨false, false, true, true, false⟩) ||
  (v = ⟨false, true, true, true, false⟩)

/-- Modelled from the spec: the cgb-enhanced half of §4.1 step 2's
fixed 4-case classification: {SGB∪CGB}, {MGB∪SGB∪CGB}, {CGB} and
{MGB∪CGB} are cgb-enhanced. -/
def cgbEnhanced (v : ValidModelSet) : Bool :=
  (v = ⟨false, false, true, true, false⟩) ||
  (v = ⟨false, true, true, true, false⟩) ||
  (v = ⟨false, false, false, true, false⟩) ||
  (v = ⟨false, true, false, true, false⟩)

/-- Modelled from the spec: the fixed cartridge-header window of §3;
the Game-Boy cartridge header occupies the ROM up to offset 0x14F, so
the window size is 0x150 bytes. -/
def headerWindowSize : ℕ := 0x150

/-- Modelled from the spec: the engine collaborators of §6 consumed by
the resolver (header-flag classification into a `ValidModelSet`,
`crc32`, and the two independent override lookups), none of which are
under src/. -/
structure ResolverEnv where
  validModels : List ℕ → ValidModelSet
  crc32 : List ℕ → ℕ
  cgbOverride : ℕ → Bool
  sgbOverride : ℕ → Bool

/-- Modelled from the spec: the Model Resolver `resolve(romBytes,
requestedMode)` of §4.1, whose implementation is engine-side code not
under src/: Fixed maps directly through the table; Auto modes fall back
to {DMG, NONE} on a short ROM, otherwise classify the header, query the
two overrides on the header CRC32, and apply the tie-break order of
step 4 verbatim. -/
def resolveModel (env : ResolverEnv) (rom : List ℕ)
    (mode : RequestedMode) : ResolvedModel :=
  match mode with
  | .Fixed v => ⟨v, colorModeOf v⟩
  | _ =>
    if rom.length < headerWindowSize then ⟨.DMG, .NONE⟩
    else
      let vs := env.validModels rom
      let sgbEnh := sgbEnhanced vs
      let cgbEnh := cgbEnhanced vs
      let crc := env.crc32 rom
      let cgbOv := env.cgbOverride crc
      let sgbOv := env.sgbOverride crc
      let variant :=
        if (sgbEnh && cgbEnh) || (cgbOv && sgbOv) then
          (if mode = RequestedMode.AutoPreferColor then GBModel.CGB
           else GBModel.SGB)
        else if sgbEnh || (sgbOv && !cgbEnh) then GBModel.SGB
        else if cgbEnh || cgbOv then GBModel.CGB
        else GBModel.DMG
      ⟨variant, colorModeOf variant⟩

/-- A concrete resolver environment used by the witnesses: every ROM
classifies as the plain {DMG} set, CRC32 is constantly 0, and both
override tables are empty. -/
def trivialEnv : ResolverEnv :=
  { validModels := fun _ => ⟨true, false, false, false, false⟩,
    crc32 := fun _ => 0,
    cgbOverride := fun _ => false,
    sgbOverride := fun _ => false }

/-- C7: a ROM shorter than the header window resolves to {DMG, NONE}
under both Auto preferences, with no error (the resolver is total). -/
theorem resolve_short_rom (env : ResolverEnv) (rom : List ℕ)
    (hshort : rom.length < headerWindowSize) :
    resolveModel env rom .AutoPreferColor = ⟨.DMG, .NONE⟩ ∧
    resolveModel env rom .AutoPreferSuperGB = ⟨.DMG, .NONE⟩ := by
  constructor <;> simp [resolveModel, hshort]

/-- Witness for C7 with the empty ROM and the trivial environment. -/
theorem resolve_short_rom_witness :
    List.length ([] : List ℕ) < headerWindowSize ∧
    (resolveModel trivialEnv [] .AutoPreferColor = ⟨.DMG, .NONE⟩ ∧
    resolveModel trivialEnv [] .AutoPreferSuperGB = ⟨.DMG, .NONE⟩) :=
  ⟨by decide, resolve_short_rom trivialEnv [] (by decide)⟩

/-- Modelled from the spec: `HS_GAME_BOY_MODEL_GAME_BOY` of the host's
`HsGameBoyModel` C enum (libhighscore, not under src/), whose six
declared values number consecutively from 0. -/
def HS_GAME_BOY_MODEL_GAME_BOY : ℤ := 0

/-- Modelled from the spec: `HS_GAME_BOY_MODEL_GAME_BOY_POCKET`. -/
def HS_GAME_BOY_MODEL_GAME_BOY_POCKET : ℤ := 1

/-- Modelled from the spec: `HS_GAME_BOY_MODEL_GAME_BOY_COLOR`. -/
def HS_GAME_BOY_MODEL_GAME_BOY_COLOR : ℤ := 2

/-- Modelled from the spec: `HS_GAME_BOY_MODEL_GAME_BOY_ADVANCE`. -/
def HS_GAME_BOY_MODEL_GAME_BOY_ADVANCE : ℤ := 3

/-- Modelled from the spec: `HS_GAME_BOY_MODEL_SUPER_GAME_BOY`. -/
def HS_GAME_BOY_MODEL_SUPER_GAME_BOY : ℤ := 4

/-- Modelled from the spec: `HS_GAME_BOY_MODEL_SUPER_GAME_BOY_2`. -/
def HS_GAME_BOY_MODEL_SUPER_GAME_BOY_2 : ℤ := 5

/-- The `switch` of `mgba_game_boy_core_set_model` (lines 471–508):
maps the host model to the engine `GBModel`; the `default` branch hits
`g_assert_not_reached ()`, modelled as `none`. -/
def mgba_game_boy_core_set_model (model : ℤ) : Option GBModel :=
  if model = HS_GAME_BOY_MODEL_GAME_BOY then some .DMG
  else if model = HS_GAME_BOY_MODEL_GAME_BOY_POCKET then some .MGB
  else if model = HS_GAME_BOY_MODEL_GAME_BOY_COLOR then some .CGB
  else if model = HS_GAME_BOY_MODEL_GAME_BOY_ADVANCE then some .AGB
  else if model = HS_GAME_BOY_MODEL_SUPER_GAME_BOY then some .SGB
  else if model = HS_GAME_BOY_MODEL_SUPER_GAME_BOY_2 then some .SGB2
  else none

/-- C8: a Fixed request maps directly through the
DMG/MGB→NONE, CGB/AGB→CGB, SGB/SGB2→SGB table, independently of the
ROM bytes; in particular Fixed(SGB2) yields {SGB2, SGB}, and the
adapter's switch sends the host's Super-Game-Boy-2 model to the engine
SGB2 variant. -/
theorem resolve_fixed_table (env : ResolverEnv) (rom rom' : List ℕ)
    (v : GBModel) :
    resolveModel env rom (.Fixed v) = ⟨v, colorModeOf v⟩ ∧
    resolveModel env rom (.Fixed v) = resolveModel env rom' (.Fixed v) ∧
    colorModeOf .DMG = .NONE ∧ colorModeOf .MGB = .NONE ∧
    colorModeOf .CGB = .CGB ∧ colorModeOf .AGB = .CGB ∧
    colorModeOf .SGB = .SGB ∧ colorModeOf .SGB2 = .SGB ∧
    resolveModel env rom (.Fixed .SGB2) = ⟨.SGB2, .SGB⟩ ∧
    mgba_game_boy_core_set_model HS_GAME_BOY_MODEL_SUPER_GAME_BOY_2 =
      some .SGB2 := by
  exact ⟨rfl, rfl, rfl, rfl, rfl, rfl, rfl, rfl, rfl, by decide⟩

/-- C9: the set-model switch hits the `g_assert_not_reached` default
branch exactly for host values outside the six declared ones; for the
six declared values the assertion branch is unreachable. -/
theorem set_model_assertion (m : ℤ) :
    mgba_game_boy_core_set_model m = none ↔
      (m ≠ HS_GAME_BOY_MODEL_GAME_BOY ∧
       m ≠ HS_GAME_BOY_MODEL_GAME_BOY_POCKET ∧
       m ≠ HS_GAME_BOY_MODEL_GAME_BOY_COLOR ∧
       m ≠ HS_GAME_BOY_MODEL_GAME_BOY_ADVANCE ∧
       m ≠ HS_GAME_BOY_MODEL_SUPER_GAME_BOY ∧
       m ≠ HS_GAME_BOY_MODEL_SUPER_GAME_BOY_2) := by
  simp only [mgba_game_boy_core_set_model]
  split_ifs <;> simp_all

/-- Witness for C9 at the out-of-range value 7. -/
theorem set_model_assertion_witness :
    mgba_game_boy_core_set_model 7 = none ↔
      ((7 : ℤ) ≠ HS_GAME_BOY_MODEL_GAME_BOY ∧
       (7 : ℤ) ≠ HS_GAME_BOY_MODEL_GAME_BOY_POCKET ∧
       (7 : ℤ) ≠ HS_GAME_BOY_MODEL_GAME_BOY_COLOR ∧
       (7 : ℤ) ≠ HS_GAME_BOY_MODEL_GAME_BOY_ADVANCE ∧
       (7 : ℤ) ≠ HS_GAME_BOY_MODEL_SUPER_GAME_BOY ∧
       (7 : ℤ) ≠ HS_GAME_BOY_MODEL_SUPER_GAME_BOY_2) :=
  set_model_assertion 7

/-- The twelve `gb.pal[i]` config assignments of
`mgba_game_boy_core_set_palette` (lines 510–531): slot `i` receives
`colors[i % n_colors]`; the function's `g_assert (n_colors == 4 ||
n_colors == 12)` precondition is carried as a theorem hypothesis. -/
def mgba_game_boy_core_set_palette (colors : ℕ → ℤ) (n_colors : ℕ) :
    List ℤ :=
  [colors (0 % n_colors), colors (1 % n_colors), colors (2 % n_colors),
   colors (3 % n_colors), colors (4 % n_colors), colors (5 % n_colors),
   colors (6 % n_colors), colors (7 % n_colors), colors (8 % n_colors),
   colors (9 % n_colors), colors (10 % n_colors), colors (11 % n_colors)]

/-- C10: under the asserted precondition `n_colors ∈ {4, 12}`, palette
slot `i` (0 ≤ i ≤ 11) gets `colors[i mod n_colors]`; hence a 4-color
palette repeats identically across the three 4-slot groups, and a
12-color palette is copied slot-for-slot. -/
theorem set_palette_mod (colors : ℕ → ℤ) (n i : ℕ)
    (hn : n = 4 ∨ n = 12) (hi : i ≤ 11) :
    (mgba_game_boy_core_set_palette colors n).getD i 0 = colors (i % n) ∧
    (mgba_game_boy_core_set_palette colors 4).getD i 0 =
      (mgba_game_boy_core_set_palette colors 4).getD (i % 4) 0 ∧
    (mgba_game_boy_core_set_palette colors 12).getD i 0 = colors i := by
  rcases hn with rfl | rfl <;> interval_cases i <;>
    simp [mgba_game_boy_core_set_palette]

/-- Witness for C10 with the identity coloring, `n_colors = 4`,
slot 7. -/
theorem set_palette_mod_witness :
    ((4 : ℕ) = 4 ∨ (4 : ℕ) = 12) ∧ (7 : ℕ) ≤ 11 ∧
    ((mgba_game_boy_core_set_palette (fun k => (k : ℤ)) 4).getD 7 0 =
      (fun k => (k : ℤ)) (7 % 4) ∧
    (mgba_game_boy_core_set_palette (fun k => (k : ℤ)) 4).getD 7 0 =
      (mgba_game_boy_core_set_palette (fun k => (k : ℤ)) 4).getD (7 % 4) 0 ∧
    (mgba_game_boy_core_set_palette (fun k => (k : ℤ)) 12).getD 7 0 =
      (fun k => (k : ℤ)) 7) :=
  ⟨Or.inl rfl, by decide,
    set_palette_mod (fun k => (k : ℤ)) 4 7 (Or.inl rfl) (by decide)⟩

end MgbaHighscore
